import Mathlib

/-!
Verification development for the THOR Lite worker (`src/tasks.py`).

The Python source is shallowly embedded: pure helpers become Lean functions;
filesystem- and process-dependent code is modelled by passing the relevant
filesystem state explicitly; fallible code returns `Except`.  Paths follow
POSIX conventions (the worker runs on Linux, `os.sep = "/"`); Unicode-specific
behaviour of Python string methods is modelled on the character lists that
actually occur (ASCII paths, names and markers), as noted at each definition.
-/

namespace ThorLite

/-! ### POSIX path model (`os.path` as used by the worker)

The worker only ever canonicalises absolute destinations (temporary
directories), so `posix_abspath` models `os.path.abspath`/`os.path.normpath`
on absolute inputs; for a relative input Python would consult the process
working directory, which never happens in the embedded code paths. -/

/-- Python `str.split(sep)` for a one-character separator, on character lists. -/
def split_on_char (sep : Char) : List Char → List (List Char)
  | [] => [[]]
  | c :: rest =>
      match split_on_char sep rest with
      | [] => [[]]
      | h :: t => if c = sep then [] :: h :: t else (c :: h) :: t

/-- Python `str.startswith`: the pattern is a leading segment of the string. -/
def str_startsWith (s pat : String) : Bool := decide (pat.data <+: s.data)

/-- Python `str.endswith`: the pattern is a trailing segment of the string. -/
def str_endsWith (s pat : String) : Bool := decide (pat.data <:+ s.data)

/-- Python slicing `s[:n]`. -/
def str_take (s : String) (n : Nat) : String := ⟨s.data.take n⟩

/-- Resolve `.` , empty and `..` components the way `os.path.normpath`
does for an absolute POSIX path (a leading `..` cannot climb above root). -/
def resolve_components (comps : List String) : List String :=
  comps.foldl
    (fun acc c =>
      if c = "" ∨ c = "." then acc
      else if c = ".." then acc.dropLast
      else acc ++ [c])
    []

/-- Model of `os.path.normpath` on an absolute POSIX path, including the POSIX rule
that exactly two leading slashes are preserved. -/
def posix_normpath (p : String) : String :=
  let comps := (split_on_char '/' p.data).map (fun l => (⟨l⟩ : String))
  let root :=
    if p.data.take 2 = ['/', '/'] ∧ p.data.take 3 ≠ ['/', '/', '/'] then "//" else "/"
  root ++ String.intercalate "/" (resolve_components comps)

/-- Model of `os.path.abspath`; on an absolute input path it equals `normpath`. -/
def posix_abspath (p : String) : String := posix_normpath p

/-- Model of `os.path.join(a, b)` for POSIX paths with `a` nonempty. -/
def posix_join (a b : String) : String :=
  if str_startsWith b "/" then b
  else if str_endsWith a "/" then a ++ b
  else a ++ "/" ++ b

/-! ### `_safe_extract_zip` (tasks.py lines 114-120)

The zip archive is represented by its `namelist()`; on success the model
returns the would-be absolute path of every member, mirroring the fact that
the source only calls `extractall` after every member passed the check. -/

/-- The would-be absolute path of a zip member, `os.path.abspath(os.path.join(destination, member))`. -/
def extract_target (dest member : String) : String :=
  posix_abspath (posix_join dest member)

/-- The escape test of `_safe_extract_zip`: the member is rejected unless its
resolved path starts with `destination + os.sep` or equals the destination. -/
def member_escapes (dest member : String) : Bool :=
  let mp := extract_target dest member
  !(str_startsWith mp (dest ++ "/")) && !(mp == dest)

/-- Model of `_safe_extract_zip`: check every member first, raising `ValueError` at the
first offender, and only then extract all members (all-or-nothing). -/
def safe_extract_zip (namelist : List String) (destination : String) :
    Except String (List String) :=
  let dest := posix_abspath destination
  match namelist.find? (fun m => member_escapes dest m) with
  | some m => .error ("Zip member would escape destination: " ++ m)
  | none => .ok (namelist.map (fun m => extract_target dest m))

/-! ### `zipfile.ZipFile.extractall` (used directly by `thor`, lines 455-456)

CPython's `_extract_member` sanitises each member name: it drops empty, `.`
and `..` components, joins the rest under the target directory and normalises
the result.  It never raises for a traversal name. -/

/-- Target path `extractall` would use for one member (CPython sanitisation). -/
def zipfile_member_target (dest member : String) : String :=
  let parts := (split_on_char '/' member.data).map (fun l => (⟨l⟩ : String))
  let arcname :=
    String.intercalate "/"
      (parts.filter (fun c => decide (c ≠ "" ∧ c ≠ "." ∧ c ≠ "..")))
  posix_normpath (posix_join dest arcname)

/-- The unchecked extraction performed by `thor` on each zip input:
`archive.extractall(extract_dir)` with no escape check, always succeeding. -/
def thor_extractall (namelist : List String) (dest : String) : List String :=
  namelist.map (fun m => zipfile_member_target dest m)

/-! ### SHA-1 (`hashlib.sha1(...).hexdigest()`)

A faithful, executable SHA-1 over byte lists; machine words are `Nat`
reduced modulo `2 ^ 32` where overflow matters. -/

/-- Reduce to a 32-bit word. -/
def w32 (n : Nat) : Nat := n % 4294967296

/-- Rotate a 32-bit word left by `s` bits (`0 < s < 32`). -/
def rotl (x s : Nat) : Nat := w32 (x <<< s) ||| (x >>> (32 - s))

/-- UTF-8 encoding of one character, as Python `str.encode("utf-8")` does. -/
def utf8_encode_char (c : Char) : List Nat :=
  let n := c.toNat
  if n < 128 then [n]
  else if n < 2048 then [192 ||| (n >>> 6), 128 ||| (n &&& 63)]
  else if n < 65536 then
    [224 ||| (n >>> 12), 128 ||| ((n >>> 6) &&& 63), 128 ||| (n &&& 63)]
  else
    [240 ||| (n >>> 18), 128 ||| ((n >>> 12) &&& 63),
     128 ||| ((n >>> 6) &&& 63), 128 ||| (n &&& 63)]

/-- The UTF-8 bytes of a string. -/
def str_utf8 (s : String) : List Nat := (s.data.map utf8_encode_char).flatten

/-- The `k` big-endian bytes of `n`. -/
def be_bytes : Nat → Nat → List Nat
  | 0, _ => []
  | k + 1, n => be_bytes k (n / 256) ++ [n % 256]

/-- SHA-1 message padding: `0x80`, zeros to 56 mod 64, 64-bit bit length. -/
def sha1_pad (msg : List Nat) : List Nat :=
  let len := msg.length
  let zeros := (119 - len % 64) % 64
  msg ++ [128] ++ List.replicate zeros 0 ++ be_bytes 8 (len * 8)

/-- Split a byte list into 64-byte chunks; the fuel argument (instantiated
with the list length, an upper bound on the chunk count) keeps the
recursion structural. -/
def chunks64_fuel : Nat → List Nat → List (List Nat)
  | 0, _ => []
  | _, [] => []
  | fuel + 1, b :: rest =>
      ((b :: rest).take 64) :: chunks64_fuel fuel ((b :: rest).drop 64)

/-- Split a byte list into 64-byte chunks. -/
def chunks64 (bs : List Nat) : List (List Nat) := chunks64_fuel bs.length bs

/-- Big-endian 32-bit words of a byte list. -/
def be_words : List Nat → List Nat
  | b0 :: b1 :: b2 :: b3 :: rest =>
      (((b0 * 256 + b1) * 256 + b2) * 256 + b3) :: be_words rest
  | _ => []

/-- One step of the SHA-1 message-schedule extension. -/
def sha1_extend_step (ws : List Nat) : List Nat :=
  let n := ws.length
  ws ++ [rotl ((ws.getD (n - 3) 0 ^^^ ws.getD (n - 8) 0) ^^^
               (ws.getD (n - 14) 0 ^^^ ws.getD (n - 16) 0)) 1]

/-- Extend the 16 schedule words by `k` more. -/
def sha1_extend (ws : List Nat) : Nat → List Nat
  | 0 => ws
  | k + 1 => sha1_extend (sha1_extend_step ws) k

/-- The five 32-bit working registers of SHA-1. -/
structure Sha1State where
  a : Nat
  b : Nat
  c : Nat
  d : Nat
  e : Nat
deriving Repr, DecidableEq

/-- SHA-1 round function `f_i`. -/
def sha1_f (i b c d : Nat) : Nat :=
  if i < 20 then (b &&& c) ||| ((b ^^^ 4294967295) &&& d)
  else if i < 40 then (b ^^^ c) ^^^ d
  else if i < 60 then ((b &&& c) ||| (b &&& d)) ||| (c &&& d)
  else (b ^^^ c) ^^^ d

/-- SHA-1 round constant `k_i`. -/
def sha1_k (i : Nat) : Nat :=
  if i < 20 then 1518500249
  else if i < 40 then 1859775393
  else if i < 60 then 2400959708
  else 3395469782

/-- One SHA-1 round. -/
def sha1_round (s : Sha1State) (iw : Nat × Nat) : Sha1State :=
  let temp := w32 (rotl s.a 5 + sha1_f iw.1 s.b s.c s.d + s.e + sha1_k iw.1 + iw.2)
  ⟨temp, s.a, rotl s.b 30, s.c, s.d⟩

/-- Process one 64-byte chunk. -/
def sha1_chunk (h : Sha1State) (chunk : List Nat) : Sha1State :=
  let ws := sha1_extend (be_words chunk) 64
  let f := (List.zip (List.range 80) ws).foldl sha1_round h
  ⟨w32 (h.a + f.a), w32 (h.b + f.b), w32 (h.c + f.c),
   w32 (h.d + f.d), w32 (h.e + f.e)⟩

/-- SHA-1 initial state. -/
def sha1_init : Sha1State :=
  ⟨1732584193, 4023233417, 2562383102, 271733878, 3285377520⟩

/-- SHA-1 of a byte list, as the five final state words. -/
def sha1_words (msg : List Nat) : Sha1State :=
  (chunks64 (sha1_pad msg)).foldl sha1_chunk sha1_init

/-- One lowercase hex digit. -/
def hex_digit (k : Nat) : Char :=
  if k < 10 then Char.ofNat (48 + k) else Char.ofNat (87 + k)

/-- Eight lowercase hex digits of a 32-bit word, most significant first. -/
def to_hex8 (n : Nat) : String :=
  ⟨(List.range 8).map (fun i => hex_digit ((n >>> (28 - 4 * i)) &&& 15))⟩

/-- Model of `hashlib.sha1(s.encode("utf-8")).hexdigest()`. -/
def sha1_hex (s : String) : String :=
  let st := sha1_words (str_utf8 s)
  to_hex8 st.a ++ to_hex8 st.b ++ to_hex8 st.c ++ to_hex8 st.d ++ to_hex8 st.e

/-! ### Python string helpers (`str.lower`, `str.strip`, `str.splitlines`)

`str.lower` is modelled by `Char.toLower`, which agrees with Python on the
ASCII letters that occur in rule filenames and config strings. -/

/-- Python `str.lower` (ASCII case folding). -/
def py_lower (s : String) : String := ⟨s.data.map Char.toLower⟩

/-- The whitespace characters stripped by Python `str.strip()`
(`str.isspace`). -/
def is_py_space (c : Char) : Bool :=
  c.toNat ∈ [32, 9, 10, 11, 12, 13, 28, 29, 30, 31, 133, 160,
             5760, 8232, 8233, 8239, 8287, 12288] ||
  (8192 ≤ c.toNat && c.toNat ≤ 8202)

/-- The characters Python `str.splitlines` breaks lines at. -/
def is_line_break (c : Char) : Bool :=
  c.toNat ∈ [10, 13, 11, 12, 28, 29, 30, 133, 8232, 8233]

/-- Python `str.strip()`. -/
def py_strip (s : String) : String :=
  ⟨((s.data.dropWhile is_py_space).reverse.dropWhile is_py_space).reverse⟩

/-- Collapse each `"\r\n"` pair to a single `'\r'`, so that the pair counts
as one line break for `str.splitlines`. -/
def normalize_crlf : List Char → List Char
  | [] => []
  | '\r' :: '\n' :: rest => '\r' :: normalize_crlf rest
  | c :: rest => c :: normalize_crlf rest

/-- Split at every line-break character; `acc` holds the current line
reversed. -/
def split_breaks : List Char → List Char → List (List Char)
  | acc, [] => if acc = [] then [] else [acc.reverse]
  | acc, c :: rest =>
      if is_line_break c then acc.reverse :: split_breaks [] rest
      else split_breaks (c :: acc) rest

/-- Python `str.splitlines()`. -/
def py_splitlines (s : String) : List String :=
  (split_breaks [] (normalize_crlf s.data)).map (fun l => (⟨l⟩ : String))

/-- Model of `content.splitlines()[0]` (on the nonempty strings it is applied to). -/
def first_line (s : String) : String := (py_splitlines s).headD ""

/-! ### `_is_yara_file` and `_flatten_yara_forge_rules` (tasks.py 123-153)

The filesystem slice touched by flatten is modelled explicitly: the bundle
directory (`YARA_FORGE_DIR`) is `none` when absent, otherwise the list of
rule-file paths relative to it (what `os.walk` + `os.path.relpath` produce);
the four fixed directories of `CUSTOM_YARA_CLEAN_DIRS` are name lists.
Copying with `shutil.copy2` overwrites, so a directory's name set is
extended only by names not already present. -/

/-- Model of `_is_yara_file`: `filename.lower().endswith((".yar", ".yara"))`. -/
def is_yara_file (filename : String) : Bool :=
  str_endsWith (py_lower filename) ".yar" || str_endsWith (py_lower filename) ".yara"

/-- The constant `YARA_FORGE_PREFIX` from tasks.py. -/
def yara_forge_tag : String := "yara_forge_"

/-- Model of `os.path.basename` of a relative POSIX path (last component). -/
def basename (p : String) : String :=
  ((split_on_char '/' p.data).map (fun l => (⟨l⟩ : String))).getLastD p

/-- The flattened destination name:
the `YARA_FORGE_PREFIX` constant, the first 12 hex digits of the
SHA-1 of `rel_path`, an underscore and the filename. -/
def dest_name (rel_path filename : String) : String :=
  yara_forge_tag ++ str_take (sha1_hex rel_path) 12 ++ "_" ++ filename

/-- A name the cleaning loop deletes: previously flattened rule files,
identified by the shared tag and a rule suffix. -/
def flagged (n : String) : Bool := str_startsWith n yara_forge_tag && is_yara_file n

/-- Remove every previously flattened file from one directory listing. -/
def clean_names (l : List String) : List String := l.filter (fun n => !(flagged n))

/-- Copy one file into a directory listing (`shutil.copy2` overwrites). -/
def insert_name (l : List String) (n : String) : List String :=
  if n ∈ l then l else l ++ [n]

/-- Copy every computed entry into one directory listing. -/
def copy_all (l : List String) (ds : List String) : List String :=
  ds.foldl insert_name l

/-- The `dest_name`s of the current bundle contents, in walk order
(only rule-suffixed files are collected). -/
def flatten_dest_names (relps : List String) : List String :=
  (relps.filter (fun p => is_yara_file (basename p))).map
    (fun p => dest_name p (basename p))

/-- Contents (name lists) of the four fixed directories flatten touches:
the two copy targets `CUSTOM_YARA_DIRS` and their two parents, which are
cleaned but not copied into. -/
structure YaraDirs where
  sig_custom_yara : List String
  custom_signatures_yara : List String
  sig_custom : List String
  custom_signatures : List String
deriving Repr, DecidableEq

/-- Model of `_flatten_yara_forge_rules`: returns the count of copied entries and the
resulting directory contents.  When the bundle directory is absent the
function returns `0` immediately, touching nothing. -/
def flatten_yara_forge_rules (bundle : Option (List String)) (dirs : YaraDirs) :
    Nat × YaraDirs :=
  match bundle with
  | none => (0, dirs)
  | some relps =>
      let ds := flatten_dest_names relps
      (ds.length,
       ⟨copy_all (clean_names dirs.sig_custom_yara) ds,
        copy_all (clean_names dirs.custom_signatures_yara) ds,
        clean_names dirs.sig_custom,
        clean_names dirs.custom_signatures⟩)

/-! ### `_coerce_bool` and `_first_value` (tasks.py 156-167) with the four
option reads in `thor`, `_update_signatures`, `_download_yara_forge`.

Config values are Python objects: `None`, a bool, a string, or a list of
values (the web form posts lists).  Calling `.strip()` on anything else in
`_coerce_bool` would raise `AttributeError`, modelled by `Except.error`. -/

/-- A task-config value as `_coerce_bool`/`_first_value` can receive it. -/
inductive CVal where
  | vnone
  | vbool (b : Bool)
  | vstr (s : String)
  | vlist (l : List CVal)
deriving Repr

/-- The strings `_coerce_bool` treats as true. -/
def truthy_strings : List String := ["1", "true", "yes", "on"]

/-- Model of `_coerce_bool(value, default)`. -/
def coerce_bool (v : CVal) (default : Bool) : Except String Bool :=
  match v with
  | .vbool b => .ok b
  | .vnone => .ok default
  | .vstr s => .ok (decide (py_lower (py_strip s) ∈ truthy_strings))
  | .vlist _ => .error "AttributeError: strip"

/-- Model of `_first_value(value)`. -/
def first_value : CVal → CVal
  | .vlist l => l.headD .vnone
  | v => v

/-- Model of `(task_config or {}).get(name)` for a possibly-absent config mapping. -/
def config_get (cfg : Option (List (String × CVal))) (name : String) : CVal :=
  match (cfg.getD []).find? (fun kv => kv.1 == name) with
  | some kv => kv.2
  | none => .vnone

/-- Model of `_coerce_bool(_first_value((task_config or {}).get(name)), default)`. -/
def option_flag (cfg : Option (List (String × CVal))) (name : String)
    (default : Bool) : Except String Bool :=
  coerce_bool (first_value (config_get cfg name)) default

/-- The `update_signatures` read in `_update_signatures` (default off). -/
def update_signatures_flag (cfg : Option (List (String × CVal))) : Except String Bool :=
  option_flag cfg "update_signatures" false

/-- The `json_v2` read in `thor` (default on). -/
def json_v2_flag (cfg : Option (List (String × CVal))) : Except String Bool :=
  option_flag cfg "json_v2" true

/-- The `custom_only` read in `thor` (default off). -/
def custom_only_flag (cfg : Option (List (String × CVal))) : Except String Bool :=
  option_flag cfg "custom_only" false

/-- The `download_yara_forge` read in `_download_yara_forge` (default off). -/
def download_yara_forge_flag (cfg : Option (List (String × CVal))) : Except String Bool :=
  option_flag cfg "download_yara_forge" false

/-! ### `_consume_log_updates` (tasks.py 98-111)

The log file is `none` while it does not exist yet, otherwise its byte
content.  `seek`/`tell` work on byte offsets: seeking past the end and
reading yields no data and leaves the position at the requested offset.
The `errors="replace"` text decoding and `str.lower()` are modelled at the
byte level with ASCII case folding, which agrees with Python on the ASCII
marker `"yara rule"` being counted. -/

/-- The rule-hit marker counted by `_consume_log_updates`. -/
def yara_rule_marker : List Nat := [121, 97, 114, 97, 32, 114, 117, 108, 101]

/-- ASCII case folding on a byte. -/
def ascii_lower_byte (b : Nat) : Nat := if 65 ≤ b ∧ b ≤ 90 then b + 32 else b

/-- Python `str.count(pat)` for a nonempty pattern: non-overlapping
occurrences, scanned left to right. -/
def count_sub (pat : List Nat) : List Nat → Nat
  | [] => 0
  | b :: rest =>
      if pat.isPrefixOf (b :: rest) then
        match pat with
        | [] => 0
        | _ :: ps => 1 + count_sub pat (rest.drop ps.length)
      else count_sub pat rest
termination_by l => l.length
decreasing_by
  all_goals simp [List.length_drop]
  omega

/-- Model of `_consume_log_updates(path, offset)`: returns the new byte offset and the
number of `"yara rule"` occurrences in the newly read bytes. -/
def consume_log_updates (file : Option (List Nat)) (offset : Nat) : Nat × Nat :=
  match file with
  | none => (offset, 0)
  | some content =>
      let data := content.drop offset
      let new_offset := max offset content.length
      if data.isEmpty then (new_offset, 0)
      else (new_offset, count_sub yara_rule_marker (data.map ascii_lower_byte))

/-- A whole supervision loop's worth of consecutive `_consume_log_updates`
calls (tasks.py 487-493): threads the offset through and accumulates hits. -/
def run_consume (files : List (Option (List Nat))) (offset : Nat) : Nat × Nat :=
  match files with
  | [] => (offset, 0)
  | f :: rest =>
      let step := consume_log_updates f offset
      let tail := run_consume rest step.1
      (tail.1, step.2 + tail.2)

/-! ### `_get_signature_status` (tasks.py 170-211)

The filesystem is modelled per candidate path: absent, existing but failing
to read (`OSError`, caught), existing but failing UTF-8 decoding
(`UnicodeDecodeError`, not caught by the `except OSError` handler and hence
propagating, modelled by `Except.error`), or readable with decoded content.
`json.loads`
is modelled by an oracle from content to outcome: a parse error
(`JSONDecodeError`, caught), a JSON object with string values, or a non-object
value — on which the source's `payload.get(...)` raises an uncaught
`AttributeError`, modelled by `Except.error`.  The rendered directory
mtime is carried as a pre-rendered string. -/

/-- The state of one candidate version file: `unreadable` is an `OSError`
on read (caught by the source), `undecodable` is content that is not valid
UTF-8, on which `open(path, "r", encoding="utf-8").read()` raises an
uncaught `UnicodeDecodeError`. -/
inductive FileState where
  | absent
  | unreadable
  | undecodable
  | readable (content : String)

/-- Outcome of `json.loads` on a candidate's content. -/
inductive JsonOutcome where
  | parseError
  | obj (entries : List (String × String))
  | nonObj

/-- The filesystem slice `_get_signature_status` reads. -/
structure SigFs where
  file : String → FileState
  json_loads : String → JsonOutcome
  sig_dir_exists : Bool
  sig_dir_mtime_rendered : String

/-- The fixed ordered candidate list from tasks.py. -/
def version_files : List String :=
  ["/thor-lite/signatures/version.txt",
   "/thor-lite/signatures/version",
   "/thor-lite/signatures/versions.txt",
   "/thor-lite/signatures/versions.json",
   "/thor-lite/signatures/siginfo.txt"]

/-- Python truthiness of an optional string. -/
def opt_truthy : Option String → Bool
  | some s => !(s == "")
  | none => false

/-- Model of `payload.get(k)` on the modelled JSON object. -/
def json_get (entries : List (String × String)) (k : String) : Option String :=
  match entries.find? (fun kv => kv.1 == k) with
  | some kv => some kv.2
  | none => none

/-- Model of `payload.get("version") or payload.get("signature_version") or
payload.get("signatures")`: first truthy value, else the last operand. -/
def or3 (a b c : Option String) : Option String :=
  if opt_truthy a then a else if opt_truthy b then b else c

/-- One pass of the candidate loop, carrying the mutable `version` variable;
returns `Except.error` where the source would raise. -/
def probe_version (fs : SigFs) : Option String → List String →
    Except String (Option String)
  | version, [] => .ok version
  | version, path :: rest =>
      match fs.file path with
      | .absent => probe_version fs version rest
      | .unreadable => probe_version fs version rest
      | .undecodable => .error "UnicodeDecodeError: read"
      | .readable raw =>
          let content := py_strip raw
          if content == "" then probe_version fs version rest
          else
            let step : Except String (Option String) :=
              if str_endsWith path ".json" then
                match fs.json_loads content with
                | .parseError => .ok none
                | .obj entries =>
                    .ok (or3 (json_get entries "version")
                             (json_get entries "signature_version")
                             (json_get entries "signatures"))
                | .nonObj => .error "AttributeError: get"
              else .ok (some (first_line content))
            match step with
            | .error e => .error e
            | .ok v => if opt_truthy v then .ok v else probe_version fs v rest

/-- The `{version, updated_at}` pair the probe builds. -/
structure SigStatus where
  version : Option String
  updated_at : Option String
deriving Repr, DecidableEq

/-- Model of `_get_signature_status()`. -/
def get_signature_status (fs : SigFs) : Except String SigStatus :=
  match probe_version fs none version_files with
  | .error e => .error e
  | .ok version =>
      let updated_at :=
        if fs.sig_dir_exists then some fs.sig_dir_mtime_rendered else none
      .ok ⟨version, updated_at⟩

/-! ### Workspace preparation in `thor` (tasks.py 436-469)

Each input descriptor contributes its `path` value (`None` when the key is
missing).  The filesystem is modelled by predicates for `os.path.exists` and
`zipfile.is_zipfile`, plus the number of top-level entries `os.scandir`
finds in a zip input's extraction directory. -/

/-- The filesystem slice the input-preparation loop consults. -/
structure PrepFs where
  file_exists : String → Bool
  is_zipfile : String → Bool
  zip_top_entries : String → Nat

/-- Python rendering of the `path` value inside the error f-string
(`None` prints as `"None"`). -/
def py_str_opt : Option String → String
  | none => "None"
  | some s => s

/-- The guard `not path or not os.path.exists(path)`. -/
def input_bad (fs : PrepFs) : Option String → Bool
  | none => true
  | some s => s == "" || !(fs.file_exists s)

/-- The error message raised for a missing input. -/
def missing_input_msg (p : Option String) : String :=
  "Input file missing or not found: " ++ py_str_opt p

/-- The error message raised when nothing was prepared. -/
def no_prepared_msg : String :=
  "No input files prepared for THOR Lite scan (after extraction/linking)."

/-- The input-preparation loop: raises at the first missing input, otherwise
accumulates `prepared_count` (top-level extracted entries for zip inputs,
one per hard-linked file). -/
def prepare_inputs (fs : PrepFs) : List (Option String) → Except String Nat
  | [] => .ok 0
  | p :: rest =>
      if input_bad fs p then .error (missing_input_msg p)
      else
        let cnt :=
          match p with
          | some s => if fs.is_zipfile s then fs.zip_top_entries s else 1
          | none => 0
        (prepare_inputs fs rest).map (fun n => cnt + n)

/-- Whether `thor` reaches the scanner subprocess launch. -/
inductive WorkspaceOutcome where
  | aborted (msg : String)
  | launched (prepared : Nat)
deriving Repr, DecidableEq

/-- The workspace phase of `thor`: the subprocess is launched only after the
loop finished and the sanity check `prepared_count == 0` passed. -/
def workspace_phase (fs : PrepFs) (inputs : List (Option String)) :
    WorkspaceOutcome :=
  match prepare_inputs fs inputs with
  | .error m => .aborted m
  | .ok n => if n = 0 then .aborted no_prepared_msg else .launched n

/-! ### Result collection and exit-code policy in `thor` (tasks.py 520-559)

Output artifacts are kept only when present with non-zero size; a non-zero
exit code with no artifacts raises, otherwise metadata records the exit code
and capped stderr/stdout excerpts. -/

/-- One output file handle (path plus its semantic label). -/
structure OutputFile where
  path : String
  data_type : String
deriving Repr, DecidableEq

/-- One metadata value. -/
inductive MetaVal where
  | intVal (i : Int)
  | strVal (s : String)
deriving Repr, DecidableEq

/-- The final structured result. -/
structure TaskResult where
  output_files : List OutputFile
  workflow_id : Option String
  command : String
  meta : List (String × MetaVal)
deriving Repr, DecidableEq

/-- Keep an artifact iff `os.path.exists(p) and os.stat(p).st_size > 0`;
`size : String → Option Nat` gives the size of existing paths. -/
def output_kept (size : String → Option Nat) (f : OutputFile) : Bool :=
  match size f.path with
  | some sz => decide (0 < sz)
  | none => false

/-- The artifact filter of tasks.py 522-524, over the three expected
artifacts `[html_output, json_log, txt_log]`. -/
def collect_output_files (size : String → Option Nat)
    (candidates : List OutputFile) : List OutputFile :=
  candidates.filter (fun f => output_kept size f)

/-- Model of `stderr_msg or '<empty>'`. -/
def or_empty_marker (s : String) : String := if s = "" then "<empty>" else s

/-- The fatal error message of tasks.py 528-533. -/
def thor_error_message (returncode : Int) (command_str stderr_msg stdout_msg : String) :
    String :=
  "THOR Lite failed with exit code " ++ toString returncode ++
  ". Command: " ++ command_str ++
  ". STDERR: " ++ or_empty_marker stderr_msg ++
  ". STDOUT: " ++ or_empty_marker stdout_msg

/-- The `meta` dictionary of tasks.py 541-552, in insertion order. -/
def thor_meta (sig_version sig_updated : Option String) (returncode : Int)
    (stderr_msg stdout_msg : String) : List (String × MetaVal) :=
  (if opt_truthy sig_version
   then [("signature_version", MetaVal.strVal (sig_version.getD ""))] else []) ++
  (if opt_truthy sig_updated
   then [("signature_updated_at", MetaVal.strVal (sig_updated.getD ""))] else []) ++
  (if returncode ≠ 0 then
    [("thor_exit_code", MetaVal.intVal returncode)] ++
    (if stderr_msg ≠ ""
     then [("thor_stderr", MetaVal.strVal (str_take stderr_msg 2000))] else []) ++
    (if stdout_msg ≠ ""
     then [("thor_stdout", MetaVal.strVal (str_take stdout_msg 2000))] else [])
   else [])

/-- The tail of `thor` after the subprocess exited (tasks.py 517-559):
strip the captured streams, classify the exit code against the collected
artifacts, and build the result.  `Except.error` models the raised
`RuntimeError`. -/
def thor_finalize (output_files : List OutputFile) (returncode : Int)
    (command_str stderr_raw stdout_raw : String)
    (sig_version sig_updated : Option String) (workflow_id : Option String) :
    Except String TaskResult :=
  let stderr_msg := py_strip stderr_raw
  let stdout_msg := py_strip stdout_raw
  if returncode ≠ 0 ∧ output_files = [] then
    .error (thor_error_message returncode command_str stderr_msg stdout_msg)
  else
    .ok ⟨output_files, workflow_id, command_str,
         thor_meta sig_version sig_updated returncode stderr_msg stdout_msg⟩

/-- The collection-plus-classification flow as `thor` runs it. -/
def thor_collect_and_finalize (size : String → Option Nat)
    (html_output json_log txt_log : OutputFile) (returncode : Int)
    (command_str stderr_raw stdout_raw : String)
    (sig_version sig_updated : Option String) (workflow_id : Option String) :
    Except String TaskResult :=
  thor_finalize (collect_output_files size [html_output, json_log, txt_log])
    returncode command_str stderr_raw stdout_raw sig_version sig_updated workflow_id

/-! ## Theorems -/

/-- An artifact survives the filter iff its path has a recorded positive size. -/
theorem output_kept_iff (size : String → Option Nat) (f : OutputFile) :
    output_kept size f = true ↔ ∃ sz, size f.path = some sz ∧ 0 < sz := by
  unfold output_kept
  cases h : size f.path <;> simp [h]

/-- Claim C4: each of the three expected output artifacts is included in the
final result's `output_files` iff its path exists with size strictly greater
than zero; missing or empty artifacts are silently omitted, and on a zero
exit code the result is built without error regardless of which artifacts
survived. -/
theorem output_artifacts_kept_iff_nonempty (size : String → Option Nat)
    (html_output json_log txt_log f : OutputFile)
    (command_str stderr_raw stdout_raw : String)
    (sig_version sig_updated workflow_id : Option String) :
    (f ∈ collect_output_files size [html_output, json_log, txt_log] ↔
       (f ∈ [html_output, json_log, txt_log] ∧
        ∃ sz, size f.path = some sz ∧ 0 < sz))
    ∧ thor_collect_and_finalize size html_output json_log txt_log 0
        command_str stderr_raw stdout_raw sig_version sig_updated workflow_id
      = .ok ⟨collect_output_files size [html_output, json_log, txt_log],
             workflow_id, command_str,
             thor_meta sig_version sig_updated 0 (py_strip stderr_raw) (py_strip stdout_raw)⟩ := by
  constructor
  · rw [collect_output_files, List.mem_filter, output_kept_iff]
  · simp [thor_collect_and_finalize, thor_finalize]

/-- Claim C2 (code evidence): during workspace preparation `thor` extracts
zip inputs with a bare `archive.extractall` and no escape check, so an
archive member named `../evil` is extracted without any error (CPython's
sanitisation places it at `evil` inside the destination), whereas the
repository's own `_safe_extract_zip` rejects the very same archive. -/
theorem thor_zip_extraction_lacks_escape_check :
    thor_extractall ["../evil"] "/workspace/zip_1_evidence"
        = ["/workspace/zip_1_evidence/evil"]
    ∧ safe_extract_zip ["../evil"] "/workspace/zip_1_evidence"
        = .error "Zip member would escape destination: ../evil" := by
  constructor <;> rfl

/-- Claim C10: boolean run-configuration coercion — lists contribute their
first element (empty lists contribute `None`), a missing value yields the
option's default (true only for `json_v2`), booleans pass through, and a
string is true iff its stripped, lowercased form is exactly one of
`"1"`, `"true"`, `"yes"`, `"on"`. -/
theorem coerce_bool_option_semantics :
    (∀ d, coerce_bool .vnone d = .ok d)
    ∧ (∀ b d, coerce_bool (.vbool b) d = .ok b)
    ∧ (∀ s d, coerce_bool (.vstr s) d = .ok true ↔
        py_lower (py_strip s) ∈ truthy_strings)
    ∧ first_value (.vlist []) = .vnone
    ∧ (∀ v l, first_value (.vlist (v :: l)) = v)
    ∧ json_v2_flag none = .ok true
    ∧ json_v2_flag (some []) = .ok true
    ∧ update_signatures_flag none = .ok false
    ∧ custom_only_flag none = .ok false
    ∧ download_yara_forge_flag none = .ok false
    ∧ (∀ cfg name d,
        (cfg.getD []).find? (fun kv => kv.1 == name) = none →
        option_flag cfg name d = .ok d) := by
  refine ⟨fun d => rfl, fun b d => rfl, fun s d => ?_, rfl, fun v l => rfl,
          rfl, rfl, rfl, rfl, rfl, fun cfg name d h => ?_⟩
  · simp [coerce_bool]
  · simp [option_flag, config_get, h, first_value, coerce_bool]

/-- Witness for C10: with a config that holds only an unrelated key, the
`json_v2` option falls back to its default `true`. -/
theorem coerce_bool_option_semantics_witness :
    option_flag (some [("other", CVal.vstr "1")]) "json_v2" true = .ok true := by
  exact coerce_bool_option_semantics.2.2.2.2.2.2.2.2.2.2
    (some [("other", CVal.vstr "1")]) "json_v2" true rfl

/-- Claim C1: `_safe_extract_zip` fails closed.  If every member's resolved
path passes the separator-bounded check, the whole archive is extracted and
every target path equals the canonical destination or sits strictly under it;
if any member fails the check, the function raises and — since extraction
only happens in the `ok` branch — no member at all is extracted. -/
theorem safe_extract_zip_fail_closed (namelist : List String) (destination : String) :
    ((∀ m ∈ namelist, member_escapes (posix_abspath destination) m = false) →
        safe_extract_zip namelist destination
          = .ok (namelist.map (fun m => extract_target (posix_abspath destination) m))
        ∧ ∀ p ∈ namelist.map (fun m => extract_target (posix_abspath destination) m),
            p = posix_abspath destination
            ∨ str_startsWith p (posix_abspath destination ++ "/") = true)
    ∧ (∀ m ∈ namelist, member_escapes (posix_abspath destination) m = true →
        ∃ e, safe_extract_zip namelist destination = .error e) := by
  constructor
  · intro h
    have hfind : namelist.find? (fun m => member_escapes (posix_abspath destination) m) = none := by
      rw [List.find?_eq_none]
      intro m hm
      simp [h m hm]
    refine ⟨by rw [safe_extract_zip, hfind], ?_⟩
    intro p hp
    obtain ⟨m, hm, rfl⟩ := List.mem_map.mp hp
    have hme := h m hm
    unfold member_escapes at hme
    rcases Bool.and_eq_false_iff.mp hme with hs | he
    · right
      simpa using hs
    · left
      have : (extract_target (posix_abspath destination) m == posix_abspath destination) = true := by
        simpa using he
      exact eq_of_beq this
  · intro m hm hesc
    have : (namelist.find? (fun m => member_escapes (posix_abspath destination) m)).isSome := by
      rw [List.find?_isSome]
      exact ⟨m, hm, hesc⟩
    obtain ⟨x, hx⟩ := Option.isSome_iff_exists.mp this
    exact ⟨_, by rw [safe_extract_zip, hx]⟩

/-- Witness for C1: a benign archive extracts fully under the destination,
a `../`-traversal member is rejected, and a member resolving to a sibling
directory whose name merely extends the destination's is rejected too. -/
theorem safe_extract_zip_fail_closed_witness :
    safe_extract_zip ["report.html", "sub/rule.yar"] "/tmp/dest"
        = .ok ["/tmp/dest/report.html", "/tmp/dest/sub/rule.yar"]
    ∧ (∃ e, safe_extract_zip ["../evil"] "/tmp/dest" = .error e)
    ∧ (∃ e, safe_extract_zip ["../dest-sibling/file"] "/tmp/dest" = .error e) := by
  refine ⟨?_, ?_, ?_⟩
  · exact ((safe_extract_zip_fail_closed ["report.html", "sub/rule.yar"] "/tmp/dest").1
      (by decide)).1.trans rfl
  · exact (safe_extract_zip_fail_closed ["../evil"] "/tmp/dest").2
      "../evil" (by decide) (by decide)
  · exact (safe_extract_zip_fail_closed ["../dest-sibling/file"] "/tmp/dest").2
      "../dest-sibling/file" (by decide) (by decide)

/-- The offset returned by one `_consume_log_updates` call. -/
theorem consume_log_updates_fst (content : List Nat) (offset : Nat) :
    (consume_log_updates (some content) offset).1 = max offset content.length := by
  simp only [consume_log_updates]
  split <;> rfl

/-- Claim C7: across any sequence of consecutive `_consume_log_updates`
calls (including calls while the log file does not exist) the cursor never
decreases; each call on an existing log counts marker occurrences exactly in
the bytes past the incoming offset; and after the log grows by a suffix, the
next call's count is taken entirely within that suffix, so no log occurrence
is ever counted twice and the accumulated hit count only grows. -/
theorem log_cursor_monotone_no_double_count :
    (∀ files offset, offset ≤ (run_consume files offset).1)
    ∧ (∀ content offset,
        (consume_log_updates (some content) offset).2
          = count_sub yara_rule_marker ((content.drop offset).map ascii_lower_byte))
    ∧ (∀ content suffix offset,
        (consume_log_updates (some (content ++ suffix))
            (consume_log_updates (some content) offset).1).2
          = count_sub yara_rule_marker
              ((suffix.drop
                  ((consume_log_updates (some content) offset).1 - content.length)).map
                ascii_lower_byte)) := by
  have hstep : ∀ (f : Option (List Nat)) (offset : Nat),
      offset ≤ (consume_log_updates f offset).1 := by
    intro f offset
    cases f with
    | none => exact Nat.le_refl _
    | some content =>
        rw [consume_log_updates_fst]
        exact Nat.le_max_left _ _
  have hsnd : ∀ (content : List Nat) (offset : Nat),
      (consume_log_updates (some content) offset).2
        = count_sub yara_rule_marker ((content.drop offset).map ascii_lower_byte) := by
    intro content offset
    simp only [consume_log_updates]
    split
    · rename_i hempty
      rw [List.isEmpty_iff.mp hempty]
      simp [count_sub]
    · rfl
  refine ⟨?_, hsnd, ?_⟩
  · intro files
    induction files with
    | nil => intro offset; exact Nat.le_refl _
    | cons f rest ih =>
        intro offset
        exact Nat.le_trans (hstep f offset) (ih (consume_log_updates f offset).1)
  · intro content suffix offset
    rw [hsnd, consume_log_updates_fst]
    have hge : content.length ≤ max offset content.length := Nat.le_max_right _ _
    have hdrop : (content ++ suffix).drop (max offset content.length)
        = suffix.drop (max offset content.length - content.length) := by
      rw [List.drop_append_eq_append_drop,
          List.drop_eq_nil_of_le hge, List.nil_append]
    rw [hdrop]

/-- If the preparation loop succeeds, every input passed the existence guard. -/
theorem prepare_inputs_ok_all_good (fs : PrepFs) :
    ∀ (inputs : List (Option String)) (n : Nat),
      prepare_inputs fs inputs = .ok n → ∀ p ∈ inputs, input_bad fs p = false := by
  intro inputs
  induction inputs with
  | nil => simp
  | cons q rest ih =>
      intro n h p hp
      simp only [prepare_inputs] at h
      by_cases hb : input_bad fs q
      · simp [hb] at h
      · simp only [hb, Bool.false_eq_true, if_false] at h
        rcases List.mem_cons.mp hp with rfl | hmem
        · simpa using hb
        · cases hrest : prepare_inputs fs rest with
          | error e => rw [hrest] at h; simp [Except.map] at h
          | ok m => exact ih m hrest p hmem

/-- If some input fails the guard, the loop raises the missing-input error
for the first failing input. -/
theorem prepare_inputs_first_bad (fs : PrepFs) :
    ∀ (inputs : List (Option String)) (i : Option String),
      inputs.find? (input_bad fs) = some i →
      prepare_inputs fs inputs = .error (missing_input_msg i) := by
  intro inputs
  induction inputs with
  | nil => simp
  | cons q rest ih =>
      intro i h
      by_cases hb : input_bad fs q
      · rw [List.find?_cons_of_pos _ hb] at h
        cases h
        simp only [prepare_inputs]
        rw [if_pos hb]
      · rw [List.find?_cons_of_neg _ hb] at h
        simp only [prepare_inputs]
        rw [if_neg hb, ih i h]
        rfl

/-- Claim C8: the scanner subprocess is gated behind workspace preparation —
a missing input aborts the run with the missing-input error at the failing
descriptor, a successful loop totalling zero prepared items aborts with the
empty-workspace error, and reaching the launch implies every input existed
and something was prepared. -/
theorem thor_workspace_gate (fs : PrepFs) (inputs : List (Option String)) :
    (∀ i, inputs.find? (input_bad fs) = some i →
        workspace_phase fs inputs = .aborted (missing_input_msg i))
    ∧ (∀ n, prepare_inputs fs inputs = .ok n →
        (n = 0 → workspace_phase fs inputs = .aborted no_prepared_msg)
        ∧ (n ≠ 0 → workspace_phase fs inputs = .launched n))
    ∧ (∀ n, workspace_phase fs inputs = .launched n →
        n ≠ 0 ∧ ∀ p ∈ inputs, input_bad fs p = false) := by
  refine ⟨?_, ?_, ?_⟩
  · intro i h
    rw [workspace_phase, prepare_inputs_first_bad fs inputs i h]
  · intro n h
    constructor
    · intro hz
      simp [workspace_phase, h, hz]
    · intro hnz
      simp [workspace_phase, h, hnz]
  · intro n h
    rw [workspace_phase] at h
    cases hp : prepare_inputs fs inputs with
    | error e => rw [hp] at h; cases h
    | ok m =>
        rw [hp] at h
        simp only [] at h
        by_cases hz : m = 0
        · rw [if_pos hz] at h; cases h
        · rw [if_neg hz] at h
          cases h
          exact ⟨hz, prepare_inputs_ok_all_good fs inputs _ hp⟩

/-- Witness for C8: a run whose only input does not exist aborts with the
missing-input error; a run whose only input is an empty zip archive prepares
zero items and aborts with the empty-workspace error; neither reaches the
launch. -/
theorem thor_workspace_gate_witness :
    workspace_phase ⟨fun _ => false, fun _ => false, fun _ => 0⟩
        [some "/in/missing.bin"]
      = .aborted (missing_input_msg (some "/in/missing.bin"))
    ∧ workspace_phase ⟨fun _ => true, fun _ => true, fun _ => 0⟩
        [some "/in/empty.zip"]
      = .aborted no_prepared_msg := by
  constructor
  · exact (thor_workspace_gate ⟨fun _ => false, fun _ => false, fun _ => 0⟩
      [some "/in/missing.bin"]).1 (some "/in/missing.bin") (by decide)
  · exact ((thor_workspace_gate ⟨fun _ => true, fun _ => true, fun _ => 0⟩
      [some "/in/empty.zip"]).2.1 0 rfl).1 rfl

/-- Lookup distributes over list append. -/
theorem lookup_append_or (l₁ l₂ : List (String × MetaVal)) (k : String) :
    (l₁ ++ l₂).lookup k = (l₁.lookup k).or (l₂.lookup k) := by
  induction l₁ with
  | nil => simp [List.lookup]
  | cons h t ih =>
      obtain ⟨a, b⟩ := h
      by_cases hk : (k == a)
      · simp [List.lookup_cons, hk]
      · simp [List.lookup_cons, hk, ih]

/-- On a non-zero exit code the metadata records the code and, when
non-empty, the capped stderr/stdout excerpts. -/
theorem thor_meta_exit_lookups (sv su : Option String) (rc : Int) (se so : String)
    (hrc : rc ≠ 0) :
    (thor_meta sv su rc se so).lookup "thor_exit_code" = some (.intVal rc)
    ∧ (se ≠ "" → (thor_meta sv su rc se so).lookup "thor_stderr"
        = some (.strVal (str_take se 2000)))
    ∧ (so ≠ "" → (thor_meta sv su rc se so).lookup "thor_stdout"
        = some (.strVal (str_take so 2000))) := by
  refine ⟨?_, fun hse => ?_, fun hso => ?_⟩ <;>
    · by_cases h1 : opt_truthy sv <;> by_cases h2 : opt_truthy su <;>
      by_cases h3 : se = "" <;> by_cases h4 : so = "" <;>
      simp [thor_meta, hrc, h1, h2, h3, h4, lookup_append_or, List.lookup_cons] <;>
      first
        | rfl
        | (exact absurd h3 hse)
        | (exact absurd h4 hso)

/-- Claim C3: exit-code policy of `thor` — a non-zero exit with zero
collected artifacts raises a fatal error whose message carries the exit
code, the full command line and the (possibly `<empty>`-marked) stderr and
stdout; a non-zero exit with at least one artifact still yields a
`TaskResult` whose metadata records the exit code and, when non-empty, the
2000-character-capped stderr/stdout excerpts. -/
theorem thor_exit_code_policy (output_files : List OutputFile) (rc : Int)
    (cmd se_raw so_raw : String) (sv su wf : Option String) :
    (rc ≠ 0 → output_files = [] →
        thor_finalize output_files rc cmd se_raw so_raw sv su wf
          = .error (thor_error_message rc cmd (py_strip se_raw) (py_strip so_raw))
        ∧ (toString rc).data
            <:+: (thor_error_message rc cmd (py_strip se_raw) (py_strip so_raw)).data
        ∧ cmd.data
            <:+: (thor_error_message rc cmd (py_strip se_raw) (py_strip so_raw)).data
        ∧ (or_empty_marker (py_strip se_raw)).data
            <:+: (thor_error_message rc cmd (py_strip se_raw) (py_strip so_raw)).data
        ∧ (or_empty_marker (py_strip so_raw)).data
            <:+: (thor_error_message rc cmd (py_strip se_raw) (py_strip so_raw)).data)
    ∧ (rc ≠ 0 → output_files ≠ [] →
        ∃ r, thor_finalize output_files rc cmd se_raw so_raw sv su wf = .ok r
          ∧ r.output_files = output_files
          ∧ r.meta.lookup "thor_exit_code" = some (.intVal rc)
          ∧ (py_strip se_raw ≠ "" → r.meta.lookup "thor_stderr"
              = some (.strVal (str_take (py_strip se_raw) 2000)))
          ∧ (py_strip so_raw ≠ "" → r.meta.lookup "thor_stdout"
              = some (.strVal (str_take (py_strip so_raw) 2000)))) := by
  constructor
  · intro hrc hempty
    refine ⟨by simp [thor_finalize, hrc, hempty], ?_, ?_, ?_, ?_⟩
    · have : (thor_error_message rc cmd (py_strip se_raw) (py_strip so_raw)).data
          = "THOR Lite failed with exit code ".data ++ (toString rc).data ++
            (". Command: " ++ cmd ++ ". STDERR: " ++ or_empty_marker (py_strip se_raw) ++
             ". STDOUT: " ++ or_empty_marker (py_strip so_raw)).data := by
        simp [thor_error_message, String.data_append]
      rw [this]
      exact List.infix_append _ _ _
    · have : (thor_error_message rc cmd (py_strip se_raw) (py_strip so_raw)).data
          = ("THOR Lite failed with exit code " ++ toString rc ++ ". Command: ").data ++
            cmd.data ++
            (". STDERR: " ++ or_empty_marker (py_strip se_raw) ++
             ". STDOUT: " ++ or_empty_marker (py_strip so_raw)).data := by
        simp [thor_error_message, String.data_append]
      rw [this]
      exact List.infix_append _ _ _
    · have : (thor_error_message rc cmd (py_strip se_raw) (py_strip so_raw)).data
          = ("THOR Lite failed with exit code " ++ toString rc ++ ". Command: " ++ cmd ++
             ". STDERR: ").data ++
            (or_empty_marker (py_strip se_raw)).data ++
            (". STDOUT: " ++ or_empty_marker (py_strip so_raw)).data := by
        simp [thor_error_message, String.data_append]
      rw [this]
      exact List.infix_append _ _ _
    · have : (thor_error_message rc cmd (py_strip se_raw) (py_strip so_raw)).data
          = ("THOR Lite failed with exit code " ++ toString rc ++ ". Command: " ++ cmd ++
             ". STDERR: " ++ or_empty_marker (py_strip se_raw) ++ ". STDOUT: ").data ++
            (or_empty_marker (py_strip so_raw)).data ++ [] := by
        simp [thor_error_message, String.data_append]
      rw [this]
      exact List.infix_append _ _ _
  · intro hrc hne
    refine ⟨⟨output_files, wf, cmd,
      thor_meta sv su rc (py_strip se_raw) (py_strip so_raw)⟩,
      by simp [thor_finalize, hne], rfl, ?_, ?_, ?_⟩
    · exact (thor_meta_exit_lookups sv su rc _ _ hrc).1
    · exact (thor_meta_exit_lookups sv su rc _ _ hrc).2.1
    · exact (thor_meta_exit_lookups sv su rc _ _ hrc).2.2

/-- Witness for C3: with exit code 1 and no artifacts the run fails with the
composed message; with exit code 1 and one artifact it still returns a
result that records the exit code and the stderr excerpt. -/
theorem thor_exit_code_policy_witness :
    thor_finalize [] 1 "thor --scan" " boom " "" none none none
      = .error "THOR Lite failed with exit code 1. Command: thor --scan. STDERR: boom. STDOUT: <empty>"
    ∧ ∃ r, thor_finalize [⟨"/out/report.html", "html_report"⟩] 1 "thor --scan"
          " boom " "" none none none = .ok r
        ∧ r.output_files = [⟨"/out/report.html", "html_report"⟩]
        ∧ r.meta.lookup "thor_exit_code" = some (.intVal 1)
        ∧ r.meta.lookup "thor_stderr" = some (.strVal "boom") := by
  constructor
  · exact ((thor_exit_code_policy [] 1 "thor --scan" " boom " "" none none none).1
      (by decide) rfl).1.trans (by rfl)
  · obtain ⟨r, h1, h2, h3, h4, _⟩ :=
      (thor_exit_code_policy [⟨"/out/report.html", "html_report"⟩] 1 "thor --scan"
        " boom " "" none none none).2 (by decide) (by simp)
    exact ⟨r, h1, h2, h3, by simpa using h4 (by decide)⟩

/-- Claim C6 (amended): `dest_name` is the stated pure formula — the fixed
tag, the first 12 hex characters of the SHA-1 of `relative_path`, an
underscore and the filename — and two entries with the same filename get
the same `dest_name` exactly when their truncated digests agree, so
distinct relative paths are separated precisely up to 48-bit truncated
SHA-1 collisions. -/
theorem dest_name_formula_and_collision_iff (r1 r2 rel_path filename f : String) :
    dest_name rel_path filename
      = yara_forge_tag ++ str_take (sha1_hex rel_path) 12 ++ "_" ++ filename
    ∧ (dest_name r1 f = dest_name r2 f ↔
        str_take (sha1_hex r1) 12 = str_take (sha1_hex r2) 12) := by
  refine ⟨rfl, ?_, ?_⟩
  · intro h
    have hd := congrArg String.data h
    simp only [dest_name, String.data_append, List.append_assoc] at hd
    have hd2 := List.append_cancel_left hd
    rw [← List.append_assoc, ← List.append_assoc,
        List.append_left_inj, List.append_left_inj] at hd2
    unfold str_take
    exact congrArg String.mk (by simpa [str_take] using hd2)
  · intro h
    unfold dest_name
    rw [h]

set_option maxRecDepth 100000 in
/-- Counterexample for C6: two distinct relative paths whose SHA-1 digests
share their first 12 hex characters, so the derived `dest_name`s collide
despite distinct `relative_path`s and equal filenames. -/
theorem dest_name_truncated_sha1_collision :
    dest_name "75058044747067" "x.yar" = dest_name "98738646357120" "x.yar"
    ∧ ("75058044747067" : String) ≠ "98738646357120" := by
  constructor
  · decide
  · decide

/-- Every flattened `dest_name` carries the tag and the rule suffix, so the
cleaning pass recognises it. -/
theorem flagged_dest_name (relp f : String) (hf : is_yara_file f = true) :
    flagged (dest_name relp f) = true := by
  rw [flagged, Bool.and_eq_true]
  constructor
  · simp only [str_startsWith, dest_name, String.data_append, List.append_assoc,
               decide_eq_true_eq]
    exact List.prefix_append _ _
  · rw [is_yara_file, Bool.or_eq_true] at hf ⊢
    have hdata : (py_lower (dest_name relp f)).data
        = ((yara_forge_tag ++ str_take (sha1_hex relp) 12 ++ "_").data.map Char.toLower)
          ++ (py_lower f).data := by
      simp [py_lower, dest_name, String.data_append, List.map_append]
    rcases hf with h | h
    · left
      simp only [str_endsWith, decide_eq_true_eq] at h ⊢
      rw [hdata]
      exact h.trans (List.suffix_append _ _)
    · right
      simp only [str_endsWith, decide_eq_true_eq] at h ⊢
      rw [hdata]
      exact h.trans (List.suffix_append _ _)

/-- Every name produced for the current bundle is recognised by the cleaner. -/
theorem flatten_dest_names_flagged (relps : List String) :
    ∀ n ∈ flatten_dest_names relps, flagged n = true := by
  intro n hn
  simp only [flatten_dest_names, List.mem_map, List.mem_filter] at hn
  obtain ⟨p, ⟨_, hy⟩, rfl⟩ := hn
  exact flagged_dest_name p (basename p) hy

/-- Cleaning is idempotent. -/
theorem clean_names_idem (l : List String) :
    clean_names (clean_names l) = clean_names l := by
  simp [clean_names, List.filter_filter]

/-- Copying one flagged file and cleaning again undoes the copy. -/
theorem clean_insert (l : List String) (n : String) (hn : flagged n = true) :
    clean_names (insert_name l n) = clean_names l := by
  unfold insert_name
  split
  · rfl
  · simp [clean_names, List.filter_append, hn]

/-- Copying any batch of flagged files and cleaning again undoes the batch. -/
theorem clean_copy_all (ds : List String) (h : ∀ d ∈ ds, flagged d = true) :
    ∀ l : List String, clean_names (copy_all l ds) = clean_names l := by
  induction ds with
  | nil => intro l; rfl
  | cons d t ih =>
      intro l
      have hstep : copy_all l (d :: t) = copy_all (insert_name l d) t := rfl
      rw [hstep, ih (fun x hx => h x (List.mem_cons_of_mem d hx)),
          clean_insert l d (h d (List.mem_cons_self d t))]

/-- Membership after one copy. -/
theorem mem_insert_name (l : List String) (n x : String) :
    x ∈ insert_name l n ↔ x ∈ l ∨ x = n := by
  unfold insert_name
  split
  · rename_i hn
    constructor
    · exact fun h => Or.inl h
    · rintro (h | rfl)
      · exact h
      · exact hn
  · simp [List.mem_append]

/-- Membership after copying a batch. -/
theorem mem_copy_all (ds : List String) :
    ∀ (l : List String) (x : String), x ∈ copy_all l ds ↔ x ∈ l ∨ x ∈ ds := by
  induction ds with
  | nil => simp [copy_all]
  | cons d t ih =>
      intro l x
      have hstep : copy_all l (d :: t) = copy_all (insert_name l d) t := rfl
      rw [hstep, ih, mem_insert_name]
      simp only [List.mem_cons]
      tauto

/-- Claim C5 (amended): flatten is idempotent — a second run over the same
bundle reproduces the first run's directory contents and count exactly —
and when the bundle directory exists the flagged files in each copy
directory afterwards are exactly the current bundle's `dest_name`s, with
no flagged file left in the clean-only parent directories; when the bundle
directory is absent, however, flatten returns `0` and leaves every
directory untouched, so previously flattened files are not removed. -/
theorem flatten_idempotent_and_converges :
    (∀ bundle dirs,
        flatten_yara_forge_rules bundle (flatten_yara_forge_rules bundle dirs).2
          = flatten_yara_forge_rules bundle dirs)
    ∧ (∀ relps dirs,
        (flatten_yara_forge_rules (some relps) dirs).1
            = (flatten_dest_names relps).length
        ∧ (∀ n, (n ∈ (flatten_yara_forge_rules (some relps) dirs).2.sig_custom_yara
              ∧ flagged n = true) ↔ n ∈ flatten_dest_names relps)
        ∧ (∀ n, (n ∈ (flatten_yara_forge_rules (some relps) dirs).2.custom_signatures_yara
              ∧ flagged n = true) ↔ n ∈ flatten_dest_names relps)
        ∧ ((flatten_yara_forge_rules (some relps) dirs).2.sig_custom.filter flagged = [])
        ∧ ((flatten_yara_forge_rules (some relps) dirs).2.custom_signatures.filter flagged
            = []))
    ∧ (∀ dirs, flatten_yara_forge_rules none dirs = (0, dirs)) := by
  have hmemcopy : ∀ (relps : List String) (x : List String) (n : String),
      (n ∈ copy_all (clean_names x) (flatten_dest_names relps) ∧ flagged n = true)
        ↔ n ∈ flatten_dest_names relps := by
    intro relps x n
    constructor
    · rintro ⟨hmem, hfl⟩
      rcases (mem_copy_all _ _ _).mp hmem with hin | hin
      · rw [clean_names, List.mem_filter] at hin
        have hfalse : flagged n = false := by simpa using hin.2
        rw [hfalse] at hfl
        cases hfl
      · exact hin
    · intro hin
      exact ⟨(mem_copy_all _ _ _).mpr (Or.inr hin), flatten_dest_names_flagged relps n hin⟩
  have hcleanfilter : ∀ l : List String, (clean_names l).filter flagged = [] := by
    intro l
    rw [clean_names, List.filter_filter]
    have : ∀ a : String, (flagged a && !flagged a) = false := by
      intro a
      cases flagged a <;> rfl
    simp [this]
  refine ⟨?_, ?_, fun dirs => rfl⟩
  · intro bundle dirs
    cases bundle with
    | none => rfl
    | some relps =>
        have hds := flatten_dest_names_flagged relps
        simp only [flatten_yara_forge_rules]
        rw [clean_copy_all _ hds, clean_copy_all _ hds,
            clean_names_idem, clean_names_idem, clean_names_idem, clean_names_idem]
  · intro relps dirs
    exact ⟨rfl, hmemcopy relps dirs.sig_custom_yara,
           hmemcopy relps dirs.custom_signatures_yara,
           hcleanfilter dirs.sig_custom, hcleanfilter dirs.custom_signatures⟩

/-- Counterexample for C5: with the bundle directory absent and a previously
flattened rule file present in a custom-rule directory, flatten returns `0`
and leaves the stale flagged file in place, so the flattened set does not
equal the (empty) current bundle contents. -/
theorem flatten_stale_rules_survive_absent_bundle :
    flatten_yara_forge_rules none ⟨["yara_forge_stale.yar"], [], [], []⟩
        = (0, ⟨["yara_forge_stale.yar"], [], [], []⟩)
    ∧ flagged "yara_forge_stale.yar" = true := by
  exact ⟨rfl, by decide⟩

/-- The first element `dropWhile` keeps fails the predicate. -/
theorem dropWhile_head_false (p : Char → Bool) :
    ∀ (l : List Char) (c : Char) (cs : List Char),
      l.dropWhile p = c :: cs → p c = false := by
  intro l
  induction l with
  | nil => intro c cs h; cases h
  | cons a t ih =>
      intro c cs h
      rw [List.dropWhile_cons] at h
      split at h
      · exact ih c cs h
      · rename_i hpa
        cases h
        simpa using hpa

/-- The first character surviving `str.strip()` is not whitespace. -/
theorem py_strip_head_not_space (raw : String) (c : Char) (cs : List Char)
    (h : (py_strip raw).data = c :: cs) : is_py_space c = false := by
  have hB := (List.dropWhile_suffix (l := (raw.data.dropWhile is_py_space).reverse)
    is_py_space).reverse
  rw [List.reverse_reverse] at hB
  obtain ⟨t, ht⟩ := hB
  have hA : raw.data.dropWhile is_py_space = c :: (cs ++ t) := by
    have hdata : (py_strip raw).data
        = ((raw.data.dropWhile is_py_space).reverse.dropWhile is_py_space).reverse := rfl
    rw [hdata] at h
    rw [← ht, h]
    rfl
  exact dropWhile_head_false is_py_space raw.data c (cs ++ t) hA

/-- Every line-break character is whitespace for `str.strip()`. -/
theorem line_break_is_space (c : Char) (h : is_line_break c = true) :
    is_py_space c = true := by
  simp only [is_line_break, Bool.or_eq_true, decide_eq_true_eq, List.mem_cons,
             List.mem_singleton, List.not_mem_nil, or_false] at h
  simp only [is_py_space, Bool.or_eq_true, Bool.and_eq_true, decide_eq_true_eq,
             List.mem_cons, List.mem_singleton, List.not_mem_nil, or_false]
  omega

/-- Normalisation keeps a leading non-`'\r'` character in place. -/
theorem normalize_crlf_cons_ne (c : Char) (cs : List Char) (hc : c ≠ '\r') :
    normalize_crlf (c :: cs) = c :: normalize_crlf cs := by
  rw [normalize_crlf.eq_def]
  split
  · rename_i heq
    simp at heq
  · rename_i rest heq
    injection heq with h1 _
    exact absurd h1 hc
  · rename_i c2 rest2 hnot heq
    injection heq with h1 h2
    rw [h1, h2]

/-- Splitting with a nonempty open line never starts with an empty line. -/
theorem split_breaks_head_ne_nil :
    ∀ (l acc : List Char), acc ≠ [] → (split_breaks acc l).headD [] ≠ [] := by
  intro l
  induction l with
  | nil =>
      intro acc ha
      simp [split_breaks, ha]
  | cons c rest ih =>
      intro acc ha
      simp only [split_breaks]
      by_cases hb : is_line_break c
      · rw [if_pos hb]
        simp [ha]
      · rw [if_neg hb]
        exact ih (c :: acc) (by simp)

/-- The first line of a nonempty stripped string is nonempty. -/
theorem first_line_strip_ne (raw : String) (h : py_strip raw ≠ "") :
    first_line (py_strip raw) ≠ "" := by
  obtain ⟨c, cs, hcons⟩ : ∃ c cs, (py_strip raw).data = c :: cs := by
    cases hl : (py_strip raw).data with
    | nil =>
        exact absurd (show py_strip raw = "" by
          rw [show py_strip raw = ⟨(py_strip raw).data⟩ from rfl, hl]) h
    | cons c cs => exact ⟨c, cs, rfl⟩
  have hsp := py_strip_head_not_space raw c cs hcons
  have hbr : is_line_break c = false := by
    cases hb : is_line_break c
    · rfl
    · rw [line_break_is_space c hb] at hsp
      cases hsp
  have hcr : c ≠ '\r' := by
    intro hceq
    rw [hceq] at hsp
    have : is_py_space '\r' = true := by decide
    rw [this] at hsp
    cases hsp
  have hfl : first_line (py_strip raw)
      = ⟨(split_breaks [] (normalize_crlf (py_strip raw).data)).headD []⟩ := by
    rw [first_line, py_splitlines]
    cases split_breaks [] (normalize_crlf (py_strip raw).data) with
    | nil => rfl
    | cons x xs => rfl
  rw [hfl, hcons, normalize_crlf_cons_ne c cs hcr]
  simp only [split_breaks, hbr, Bool.false_eq_true, if_false]
  intro hcontra
  have hdata : (split_breaks [c] (normalize_crlf cs)).headD [] = [] := by
    have := congrArg String.data hcontra
    simpa using this
  exact split_breaks_head_ne_nil (normalize_crlf cs) [c] (by simp) hdata

/-- When every probed candidate decodes and no JSON candidate parses to a
non-object, the probe loop cannot raise. -/
theorem probe_version_no_nonobj_ok (fs : SigFs)
    (hno : ∀ c, fs.json_loads c ≠ .nonObj) :
    ∀ (paths : List String),
      (∀ p ∈ paths, fs.file p ≠ .undecodable) →
      ∀ (version : Option String),
        ∃ v, probe_version fs version paths = .ok v := by
  intro paths
  induction paths with
  | nil => intro _ version; exact ⟨version, rfl⟩
  | cons path rest ihp =>
      intro hdec version
      have ih := ihp fun p hp => hdec p (List.mem_cons_of_mem path hp)
      simp only [probe_version]
      cases hf : fs.file path with
      | absent => exact ih version
      | unreadable => exact ih version
      | undecodable => exact absurd hf (hdec path (List.mem_cons_self path rest))
      | readable raw =>
          dsimp only
          by_cases hb : (py_strip raw == "") = true
          · rw [if_pos hb]
            exact ih version
          · rw [if_neg hb]
            by_cases hj : str_endsWith path ".json" = true
            · rw [if_pos hj]
              cases hjl : fs.json_loads (py_strip raw) with
              | parseError =>
                  dsimp only
                  simp only [opt_truthy, Bool.false_eq_true, if_false]
                  exact ih none
              | obj entries =>
                  dsimp only
                  by_cases ht : opt_truthy (or3 (json_get entries "version")
                      (json_get entries "signature_version")
                      (json_get entries "signatures")) = true
                  · rw [if_pos ht]
                    exact ⟨_, rfl⟩
                  · rw [if_neg ht]
                    exact ih _
              | nonObj => exact absurd hjl (hno _)
            · rw [if_neg hj]
              dsimp only
              by_cases ht : opt_truthy (some (first_line (py_strip raw))) = true
              · rw [if_pos ht]
                exact ⟨_, rfl⟩
              · rw [if_neg ht]
                exact ih _

/-- When every probed candidate decodes and none has non-blank readable
content, the probe keeps the incoming `version` value. -/
theorem probe_version_no_signal (fs : SigFs) :
    ∀ (paths : List String),
      (∀ p ∈ paths, fs.file p ≠ .undecodable) →
      (∀ p ∈ paths, ∀ c, fs.file p = .readable c → py_strip c = "") →
      ∀ version, probe_version fs version paths = .ok version := by
  intro paths
  induction paths with
  | nil => intro _ _ version; rfl
  | cons path rest ih =>
      intro hdec h version
      have hdrest := fun p hp => hdec p (List.mem_cons_of_mem path hp)
      have hrest := fun p hp => h p (List.mem_cons_of_mem path hp)
      simp only [probe_version]
      cases hf : fs.file path with
      | absent => exact ih hdrest hrest version
      | unreadable => exact ih hdrest hrest version
      | undecodable => exact absurd hf (hdec path (List.mem_cons_self path rest))
      | readable raw =>
          dsimp only
          have hblank : py_strip raw = "" := h path (List.mem_cons_self path rest) raw hf
          rw [if_pos (by simp [hblank])]
          exact ih hdrest hrest version

/-- Claim C9 (amended): the signature-status probe returns a
`{version, updated_at}` pair without raising whenever every existing
candidate's content decodes as UTF-8 and no JSON candidate parses to a
non-object value (an undecodable candidate makes the `except OSError`-guarded
read raise an uncaught `UnicodeDecodeError`, and a non-object payload makes
`payload.get` raise an uncaught `AttributeError`); with every candidate
decodable, no readable non-blank candidate and the signatures directory
absent it returns `{none, none}`; a chosen plain-text candidate yields the
first line of its stripped content; and a JSON candidate that fails to
parse yields no version from that candidate, with the loop moving on
rather than erroring. -/
theorem signature_status_amended (fs : SigFs) :
    ((∀ c, fs.json_loads c ≠ .nonObj) →
        (∀ p ∈ version_files, fs.file p ≠ .undecodable) →
        ∃ st, get_signature_status fs = .ok st)
    ∧ ((∀ p ∈ version_files, fs.file p ≠ .undecodable) →
        (∀ p ∈ version_files, ∀ c, fs.file p = .readable c → py_strip c = "") →
        fs.sig_dir_exists = false →
        get_signature_status fs = .ok ⟨none, none⟩)
    ∧ (∀ (version : Option String) (path : String) (rest : List String) (raw : String),
        fs.file path = .readable raw → py_strip raw ≠ "" →
        str_endsWith path ".json" = false →
        probe_version fs version (path :: rest)
          = .ok (some (first_line (py_strip raw))))
    ∧ (∀ (version : Option String) (path : String) (rest : List String) (raw : String),
        fs.file path = .readable raw → py_strip raw ≠ "" →
        str_endsWith path ".json" = true →
        fs.json_loads (py_strip raw) = .parseError →
        probe_version fs version (path :: rest) = probe_version fs none rest) := by
  refine ⟨?_, ?_, ?_, ?_⟩
  · intro hno hdec
    obtain ⟨v, hv⟩ := probe_version_no_nonobj_ok fs hno version_files hdec none
    exact ⟨_, by rw [get_signature_status, hv]⟩
  · intro hdec hsig hdir
    rw [get_signature_status,
        probe_version_no_signal fs version_files hdec hsig none, hdir]
    rfl
  · intro version path rest raw hf hne hjson
    simp only [probe_version, hf]
    rw [if_neg (by simp [hne]), if_neg (by simp [hjson])]
    have htr : opt_truthy (some (first_line (py_strip raw))) = true := by
      simp only [opt_truthy]
      simpa using first_line_strip_ne raw hne
    dsimp only
    rw [if_pos htr]
  · intro version path rest raw hf hne hjson hperr
    simp only [probe_version, hf]
    rw [if_neg (by simp [hne]), if_pos (by simp [hjson]), hperr]
    dsimp only
    simp [opt_truthy]

/-- Witness for C9 (amended): a parse-error-only oracle never raises; an
all-absent filesystem yields `{none, none}`; the first plain-text candidate
yields its first stripped line; a failing JSON candidate falls through to
the next candidate with no version. -/
theorem signature_status_amended_witness :
    (∃ st, get_signature_status
        ⟨fun _ => .absent, fun _ => .parseError, false, ""⟩ = .ok st)
    ∧ get_signature_status ⟨fun _ => .absent, fun _ => .parseError, false, ""⟩
        = .ok ⟨none, none⟩
    ∧ probe_version ⟨fun _ => .readable "  v12 beta\nrest", fun _ => .parseError, false, ""⟩
        none ["/thor-lite/signatures/version.txt"]
        = .ok (some "v12 beta")
    ∧ probe_version ⟨fun _ => .readable "not json", fun _ => .parseError, false, ""⟩
        none ["/thor-lite/signatures/versions.json"]
        = .ok none := by
  refine ⟨?_, ?_, ?_, ?_⟩
  · exact (signature_status_amended
      ⟨fun _ => .absent, fun _ => .parseError, false, ""⟩).1 (fun c => by simp)
      (fun p hp => by simp)
  · exact (signature_status_amended
      ⟨fun _ => .absent, fun _ => .parseError, false, ""⟩).2.1
      (fun p hp => by simp) (fun p hp c hc => by simp at hc) rfl
  · exact ((signature_status_amended
      ⟨fun _ => .readable "  v12 beta\nrest", fun _ => .parseError, false, ""⟩).2.2.1
      none "/thor-lite/signatures/version.txt" [] "  v12 beta\nrest"
      rfl (by decide) (by decide)).trans (by rfl)
  · exact ((signature_status_amended
      ⟨fun _ => .readable "not json", fun _ => .parseError, false, ""⟩).2.2.2
      none "/thor-lite/signatures/versions.json" [] "not json"
      rfl (by decide) (by decide) rfl).trans (by rfl)

/-- The first filesystem state refuting C9: `versions.json` holds valid
JSON that is not an object (`json.loads` succeeds with a list), every other
candidate is absent. -/
def sig_fs_nonobj : SigFs :=
  ⟨fun p => if p == "/thor-lite/signatures/versions.json"
            then .readable "[1, 2]" else .absent,
   fun c => if c == "[1, 2]" then .nonObj else .parseError,
   false, ""⟩

/-- The second filesystem state refuting C9: `version.txt` exists but holds
bytes that are not valid UTF-8, every other candidate is absent. -/
def sig_fs_undecodable : SigFs :=
  ⟨fun p => if p == "/thor-lite/signatures/version.txt"
            then .undecodable else .absent,
   fun _ => .parseError, false, ""⟩

/-- Counterexample for C9: the probe raises on `sig_fs_nonobj` (the source's
`payload.get` call hits a list, an uncaught `AttributeError`) and on
`sig_fs_undecodable` (the candidate read raises `UnicodeDecodeError`, which
the `except OSError` handler does not catch), so `_get_signature_status`
does not return a `{version, updated_at}` pair for every filesystem state. -/
theorem signature_status_can_raise :
    get_signature_status sig_fs_nonobj = .error "AttributeError: get"
    ∧ get_signature_status sig_fs_undecodable = .error "UnicodeDecodeError: read" := by
  exact ⟨rfl, rfl⟩

end ThorLite
